import Mathlib

/-!
Shallow embedding of the backend execution runtime of a model-inference
server and of its server-status manager, together with proofs about the
behaviour of the embedded operations.

The embedding covers:

* the admission prefix of `OnnxBackend::Context::Run` and
  `BaseBackend::Context::Run` (payload-status gate, `total_batch_size`
  computation, batch-size gate) — `src/backends/onnx/onnx_backend.cc`
  lines 549-592, `src/backends/tensorflow/base_backend.cc` lines 639-682;
* the variable-length string-tensor marshalling: input assembly
  (`OnnxBackend::Context::SetStringInputBuffer`,
  `BaseBackend::Context::SetStringInputTensor`) and output dispersion
  (`OnnxBackend::Context::SetStringOutputBuffer`,
  `BaseBackend::Context::ReadStringOutputTensor`);
* the indirect-input-buffer copy loops of both `Run` implementations;
* the expected-input-count computation and count gate of the signature
  validator (`OnnxBackend::CreateExecutionContextsHelper`,
  `OnnxBackend::Context::ValidateInputs`) and the sequence-control tensor
  checks (`ValidateBooleanSequenceControl` / `ValidateTypedSequenceControl`,
  whose checked bodies are textually identical);
* `ServerStatusManager::InitForModel` / `UpdateConfigForModel`
  (`src/core/server_status.cc`).

Machine integers: `uint32` wire lengths are modelled as `Nat` with the
explicit little-endian encoding `u32le` (truncation modulo 2^32 happens in
the encoding, exactly as the `uint32_t` stores of the source). Byte buffers
are `List Nat` (one `Nat` per byte). `Status` objects are modelled by their
code only; messages are logging payload and are not modelled.
-/

namespace TritonCore

/-- Status codes of the `Status` values returned throughout the runtime
(`Status::Code` in the source). Messages are not modelled. -/
inductive StatusCode where
  | success
  | invalidArg
  | internalError
  | unavailable
deriving DecidableEq, Repr

/-! ## Run admission (prefix of `Context::Run`, both backends) -/

/-- One request payload as seen by the admission prefix of `Context::Run`:
its mutable status on entry and its request's batch size. -/
structure RunPayload where
  status : StatusCode
  batchSize : Nat
deriving DecidableEq, Repr

/-- `total_batch_size`: the sum over the delivered payloads of
`payload.request_->BatchSize()`. -/
def totalBatchSize (payloads : List RunPayload) : Nat :=
  (payloads.map RunPayload.batchSize).sum

/-- Outcome of the admission prefix of `Context::Run` — the code executed
before any input staging. `proceed t` means the run goes on to stage inputs
with `total_batch_size = t`. -/
inductive RunAdmission where
  | rejectPayloadStatus
  | emptySuccess
  | rejectBatchSize
  | proceed (totalBatchSize : Nat)
deriving DecidableEq, Repr

/-- Admission prefix of `OnnxBackend::Context::Run` (onnx_backend.cc
562-592) and `BaseBackend::Context::Run` (base_backend.cc 652-682), which
are textually identical: a payload with non-OK status on entry is rejected
(`INTERNAL`); `total_batch_size == 0` returns success without running;
`total_batch_size` other than 1 and greater than `max_batch_size_` is
rejected (`INTERNAL`); otherwise the run proceeds to input staging.
`max_batch_size_` is `NO_BATCHING = 0` for non-batching contexts (the
config value is clamped at context creation). -/
def runAdmission (maxBatchSize : Nat) (payloads : List RunPayload) : RunAdmission :=
  if payloads.any (fun p => p.status != StatusCode.success) then
    .rejectPayloadStatus
  else if totalBatchSize payloads = 0 then
    .emptySuccess
  else if totalBatchSize payloads ≠ 1 ∧ maxBatchSize < totalBatchSize payloads then
    .rejectBatchSize
  else
    .proceed (totalBatchSize payloads)

/-- Status returned by `Run` for each admission outcome: both reject paths
return `Status::Code::INTERNAL`. -/
def admissionStatus : RunAdmission → StatusCode
  | .rejectPayloadStatus => .internalError
  | .rejectBatchSize => .internalError
  | .emptySuccess => .success
  | .proceed _ => .success

/-- Whether the run reaches input staging (the `SetInputTensor` /
`SetInput` loop): only the `proceed` outcome does. -/
def admissionStagesInputs : RunAdmission → Bool
  | .proceed _ => true
  | _ => false

/-! ## String tensor wire format -/

/-- Little-endian byte encoding of a `uint32` length prefix. A value not
fitting 32 bits is truncated modulo 2^32, as a `uint32_t` store does. -/
def u32le (n : Nat) : List Nat :=
  [n % 256, n / 256 % 256, n / 65536 % 256, n / 16777216 % 256]

/-- Value of a little-endian `uint32` read from four bytes
(`*reinterpret_cast<const uint32_t*>(data_content)` on a little-endian
host). -/
def readU32 (b0 b1 b2 b3 : Nat) : Nat :=
  b0 + 256 * b1 + 65536 * b2 + 16777216 * b3

/-- Result of parsing one payload's string-input region: the status the
parse loop leaves on the payload (`success` when it never assigned one)
and the elements pushed into `string_data`, in order. -/
structure ParseResult where
  status : StatusCode
  elems : List (List Nat)
deriving DecidableEq, Repr

/-- The wire-format parse loop shared by
`OnnxBackend::Context::SetStringInputBuffer` (onnx_backend.cc 810-841) and
`BaseBackend::Context::SetStringInputTensor` (base_backend.cc 508-544):
while at least 4 bytes remain, fail with `INVALID_ARG` if the expected
element count is already reached; read a `uint32` length; fail with
`INVALID_ARG` if it exceeds the remaining bytes; otherwise take that many
bytes as the next element. (The source also zeroes the first byte of each
length prefix so the preceding element is a valid C string; that mutation
does not affect the extracted elements and is not modelled.) -/
def parseStringElements (expectedElementCnt : Nat) (elementCnt : Nat)
    (buf : List Nat) : ParseResult :=
  match buf with
  | b0 :: b1 :: b2 :: b3 :: rest =>
    if expectedElementCnt ≤ elementCnt then
      ⟨.invalidArg, []⟩
    else
      let len := readU32 b0 b1 b2 b3
      if rest.length < len then
        ⟨.invalidArg, []⟩
      else
        let r := parseStringElements expectedElementCnt (elementCnt + 1) (rest.drop len)
        ⟨r.status, rest.take len :: r.elems⟩
  | _ => ⟨.success, []⟩
termination_by buf.length
decreasing_by
  simp only [List.length_cons, List.length_drop]
  omega

/-! ## String input assembly -/

/-- One payload's view for string input assembly: its status when the
assembly loop reaches it, its request batch size, and the bytes of its
region of the contiguous input buffer (its `expected_byte_size` slot,
which for string inputs is the request's `batch_byte_size`). -/
structure StringPayload where
  status : StatusCode
  batchSize : Nat
  buf : List Nat
deriving DecidableEq, Repr

/-- One iteration of the payload loop of
`OnnxBackend::Context::SetStringInputBuffer` (onnx_backend.cc 800-847):
a payload with OK status has its region parsed and its status set to the
parse outcome; a payload with non-OK status is not parsed. In both cases
`FillStringData` pads `string_data` with empty strings up to the payload's
`expected_element_cnt = BatchSize() * batch1_element_cnt`. Returns the
payload's resulting status and its contribution to `string_data`. -/
def onnxStringPayloadResult (batch1ElementCnt : Nat) (p : StringPayload) :
    StatusCode × List (List Nat) :=
  let expectedElementCnt := p.batchSize * batch1ElementCnt
  if p.status = .success then
    let r := parseStringElements expectedElementCnt 0 p.buf
    (r.status, r.elems ++ List.replicate (expectedElementCnt - r.elems.length) [])
  else
    (p.status, List.replicate expectedElementCnt [])

/-- `OnnxBackend::Context::SetStringInputBuffer` over the whole batch:
visits the payloads in order, accumulating their statuses and the
concatenated `string_data` vector handed to `FillStringTensor`. -/
def onnxSetStringInputBuffer (batch1ElementCnt : Nat) :
    List StringPayload → List StatusCode × List (List Nat)
  | [] => ([], [])
  | p :: ps =>
    let r := onnxStringPayloadResult batch1ElementCnt p
    let rest := onnxSetStringInputBuffer batch1ElementCnt ps
    (r.1 :: rest.1, r.2 ++ rest.2)

/-- One payload's view for the TensorFlow string input path: the status of
`GetContiguousInputContent` for this payload, the request batch size, and
the retrieved contiguous content bytes. -/
structure TfStringPayload where
  contentStatus : StatusCode
  batchSize : Nat
  buf : List Nat
deriving DecidableEq, Repr

/-- One iteration of the payload loop of
`BaseBackend::Context::SetStringInputTensor` (base_backend.cc 471-558):
if content retrieval failed, the tensor positions of this payload are
filled with empty strings; otherwise the content is parsed, error paths
fill the remaining positions with empty strings, and a silent shortfall
(parse loop ended with fewer elements than expected) is an `INTERNAL`
error with the remaining positions filled. -/
def tfStringPayloadResult (batch1ElementCnt : Nat) (q : TfStringPayload) :
    StatusCode × List (List Nat) :=
  let expectedElementCnt := q.batchSize * batch1ElementCnt
  if q.contentStatus ≠ .success then
    (q.contentStatus, List.replicate expectedElementCnt [])
  else
    let r := parseStringElements expectedElementCnt 0 q.buf
    if r.status ≠ .success then
      (r.status, r.elems ++ List.replicate (expectedElementCnt - r.elems.length) [])
    else if r.elems.length ≠ expectedElementCnt then
      (.internalError, r.elems ++ List.replicate (expectedElementCnt - r.elems.length) [])
    else
      (.success, r.elems)

/-- `BaseBackend::Context::SetStringInputTensor` over the whole batch: the
per-payload statuses and the fully written tensor contents (positions
`tensor_element_idx ..` of each payload concatenated). -/
def tfSetStringInputTensor (batch1ElementCnt : Nat) :
    List TfStringPayload → List StatusCode × List (List Nat)
  | [] => ([], [])
  | q :: qs =>
    let r := tfStringPayloadResult batch1ElementCnt q
    let rest := tfSetStringInputTensor batch1ElementCnt qs
    (r.1 :: rest.1, r.2 ++ rest.2)

/-! ## String output dispersion -/

/-- Wire serialization of one string element: a little-endian `uint32`
length followed by the raw bytes, no terminator. -/
def serializeElem (s : List Nat) : List Nat :=
  u32le s.length ++ s

/-- Wire serialization of a sequence of string elements: concatenation of
the per-element serializations. -/
def serializeElems (es : List (List Nat)) : List Nat :=
  (es.map serializeElem).flatten

/-- The offsets array produced by `GetStringTensorContent` for a string
tensor whose elements are `es`, with the terminating sentinel
`offsets[element_count] = total_length` recorded by the caller
(onnx_backend.cc 919): `offsets[i]` is the total length of the first `i`
elements. -/
def stringOffsets (es : List (List Nat)) : List Nat :=
  (List.range (es.length + 1)).map fun i => ((es.take i).map List.length).sum

/-- The per-element emission loop of
`OnnxBackend::Context::SetStringOutputBuffer` (onnx_backend.cc 1024-1049):
for `cnt` elements starting at `elementIdx`, emit the `uint32` length
`offsets[e+1] - offsets[e]` followed by the `len` content bytes starting
at `content + offsets[e]`. -/
def onnxEmitElems (content offsets : List Nat) : Nat → Nat → List Nat
  | _, 0 => []
  | elementIdx, cnt + 1 =>
    let len := offsets.getD (elementIdx + 1) 0 - offsets.getD elementIdx 0
    (u32le len ++ (content.drop (offsets.getD elementIdx 0)).take len)
      ++ onnxEmitElems content offsets (elementIdx + 1) cnt

/-- One payload's view for output dispersion: its status when dispersion
reaches it, its request batch size, and whether it requested this output
(`response_provider_ != nullptr && RequiresOutput(name)`). -/
structure OutPayload where
  status : StatusCode
  batchSize : Nat
  requested : Bool
deriving DecidableEq, Repr

/-- What output dispersion did for one payload: whether a response buffer
was allocated, its requested size, the bytes written into it, and the
payload's status afterwards. -/
structure PayloadOutput where
  allocated : Bool
  allocSize : Nat
  bytes : List Nat
  status : StatusCode
deriving DecidableEq, Repr

/-- One iteration of the payload loop of
`OnnxBackend::Context::SetStringOutputBuffer` (onnx_backend.cc 997-1056):
if the payload requested this output (provider present and
`RequiresOutput`), compute
`data_byte_size = offsets[element_idx + expected_element_cnt] - offsets[element_idx]`,
allocate `data_byte_size + sizeof(uint32_t) * expected_element_cnt`
bytes, and emit each element as a `uint32` length followed by the raw
bytes. The payload's own status is not consulted. Allocation and the
host-side `CopyBuffer` calls are modelled as succeeding, so a payload
with at least one element has its status overwritten by the last copy's
(OK) status. -/
def onnxStringOutputPayload (batch1ElementCnt : Nat) (content offsets : List Nat)
    (elementIdx : Nat) (p : OutPayload) : PayloadOutput :=
  let expectedElementCnt := p.batchSize * batch1ElementCnt
  if p.requested then
    let dataByteSize :=
      offsets.getD (elementIdx + expectedElementCnt) 0 - offsets.getD elementIdx 0
    { allocated := true
      allocSize := dataByteSize + 4 * expectedElementCnt
      bytes := onnxEmitElems content offsets elementIdx expectedElementCnt
      status := if expectedElementCnt = 0 then p.status else .success }
  else
    { allocated := false, allocSize := 0, bytes := [], status := p.status }

/-- `OnnxBackend::Context::SetStringOutputBuffer` over the whole batch:
visits the payloads in order, advancing `element_idx` by each payload's
`expected_element_cnt`. -/
def onnxSetStringOutputBuffer (batch1ElementCnt : Nat) (content offsets : List Nat) :
    Nat → List OutPayload → List PayloadOutput
  | _, [] => []
  | elementIdx, p :: ps =>
    onnxStringOutputPayload batch1ElementCnt content offsets elementIdx p ::
      onnxSetStringOutputBuffer batch1ElementCnt content offsets
        (elementIdx + p.batchSize * batch1ElementCnt) ps

/-- One iteration of the payload loop of
`BaseBackend::Context::ReadStringOutputTensor` (base_backend.cc 587-636):
only a payload with OK status that requested this output gets a buffer;
the serialized bytes (per element a `uint32` length then the raw bytes)
are built first and a buffer of exactly their size is allocated.
Allocation and the copy are modelled as succeeding. -/
def tfStringOutputPayload (batch1ElementCnt : Nat) (elems : List (List Nat))
    (elementIdx : Nat) (p : OutPayload) : PayloadOutput :=
  let expectedElementCnt := p.batchSize * batch1ElementCnt
  if p.status = .success ∧ p.requested then
    let serialized := serializeElems ((elems.drop elementIdx).take expectedElementCnt)
    { allocated := true
      allocSize := serialized.length
      bytes := serialized
      status := .success }
  else
    { allocated := false, allocSize := 0, bytes := [], status := p.status }

/-- `BaseBackend::Context::ReadStringOutputTensor` over the whole batch. -/
def tfReadStringOutputTensor (batch1ElementCnt : Nat) (elems : List (List Nat)) :
    Nat → List OutPayload → List PayloadOutput
  | _, [] => []
  | elementIdx, p :: ps =>
    tfStringOutputPayload batch1ElementCnt elems elementIdx p ::
      tfReadStringOutputTensor batch1ElementCnt elems
        (elementIdx + p.batchSize * batch1ElementCnt) ps

/-- String input assembly followed by a trivial identity engine followed
by string output dispersion (ONNX path): the engine's output string tensor
is exactly the assembled `string_data`, its content and offsets are read
back, and every payload requests the output. Returns the bytes each
payload's response buffer receives. -/
def identityStringPipeline (batch1ElementCnt : Nat) (ps : List StringPayload) :
    List (List Nat) :=
  let assembled := onnxSetStringInputBuffer batch1ElementCnt ps
  let content := assembled.2.flatten
  let offsets := stringOffsets assembled.2
  (onnxSetStringOutputBuffer batch1ElementCnt content offsets 0
      (ps.map fun p => ⟨p.status, p.batchSize, true⟩)).map PayloadOutput.bytes

/-! ## Indirect-input-buffer copy loops -/

/-- Result of one `CopyBuffer` call for an indirect input buffer: whether
the copy succeeded and whether it was enqueued asynchronously on the
device stream (`cuda_used`). -/
structure IndirectCopy where
  ok : Bool
  cudaUsed : Bool
deriving DecidableEq, Repr

/-- The `cuda_copy` flag after the indirect-input-buffer loop of
`OnnxBackend::Context::Run` (onnx_backend.cc 633-657): the flag starts
`false`; a failed copy records statuses and leaves it alone; a successful
copy executes `cuda_copy |= cuda_copy` — a self-OR. The subsequent
`cudaStreamSynchronize` runs exactly when this flag is `true`. -/
def onnxIndirectInputCudaCopy (copies : List IndirectCopy) : Bool :=
  copies.foldl (fun cudaCopy c => if c.ok then cudaCopy || cudaCopy else cudaCopy) false

/-- The `cuda_copy` flag after the indirect-input-buffer loop of
`BaseBackend::Context::Run` (base_backend.cc 743-767): identical except
that a successful copy executes `cuda_copy |= cuda_used`. -/
def tfIndirectInputCudaCopy (copies : List IndirectCopy) : Bool :=
  copies.foldl (fun cudaCopy c => if c.ok then cudaCopy || c.cudaUsed else cudaCopy) false

/-! ## Signature validator -/

/-- Number of enabled sequence-control tensors: one each for
start/end/ready/corrid when present (onnx_backend.cc 327-338). -/
def countEnabledControls (haveStart haveEnd haveReady haveCorrid : Bool) : Nat :=
  (if haveStart then 1 else 0) + (if haveEnd then 1 else 0) +
    (if haveReady then 1 else 0) + (if haveCorrid then 1 else 0)

/-- `expected_input_cnt` as computed by
`OnnxBackend::CreateExecutionContextsHelper` (onnx_backend.cc 304-339):
the number of declared configuration inputs, plus — only when the config
has a `sequence_batching` block — one per enabled control tensor. -/
def expectedInputCnt (configInputCnt : Nat) (hasSequenceBatching : Bool)
    (haveStart haveEnd haveReady haveCorrid : Bool) : Nat :=
  configInputCnt +
    (if hasSequenceBatching then
      countEnabledControls haveStart haveEnd haveReady haveCorrid
    else 0)

/-- The input-count gate of `OnnxBackend::Context::ValidateInputs`
(onnx_backend.cc 464-470): when the session reports a number of inputs
different from `expected_input_cnt`, fail `INVALID_ARG`; otherwise the
remaining per-input checks (datatype and dims comparison, via helpers
outside the visible sources) decide the result. -/
def validateInputCount (sessionInputCnt expectedCnt : Nat)
    (perIoChecks : StatusCode) : StatusCode :=
  if sessionInputCnt ≠ expectedCnt then .invalidArg else perIoChecks

/-- Debatched shape: the session tensor's dims with the leading batch
axis removed when `max_batch_size_ > 0` (the `nonbatch_start_idx` loop of
onnx_backend.cc 372-376 / 424-428). -/
def debatchedDims (maxBatchSize : Nat) (dims : List Int) : List Int :=
  dims.drop (if 0 < maxBatchSize then 1 else 0)

/-- The shape and datatype checks applied to an enabled sequence-control
tensor by `ValidateBooleanSequenceControl` (onnx_backend.cc 371-394) and
`ValidateTypedSequenceControl` (onnx_backend.cc 423-446), whose checked
bodies are textually identical: the debatched dims must have size 1 with
single value 1, and the session tensor's element type must equal the
conversion of the declared control datatype. Element types are the
integer codes of the engine's element-type enum;
`declaredTypeConverted` is `ConvertToOnnxDataType(tensor_datatype)`. -/
def validateSequenceControlTensor (maxBatchSize : Nat) (tensorDims : List Int)
    (tensorType declaredTypeConverted : Nat) : StatusCode :=
  let d := debatchedDims maxBatchSize tensorDims
  if d.length ≠ 1 ∨ d.getD 0 0 ≠ 1 then .invalidArg
  else if declaredTypeConverted ≠ tensorType then .invalidArg
  else .success

/-! ## Server status manager -/

/-- One entry of the `model_status` map: its `config` field and the rest
of the `ModelStatus` message (version statuses and statistics),
abstracted as one value since `UpdateConfigForModel` never touches it. -/
structure ModelStatusEntry (α β : Type) where
  config : α
  versionStatus : β
deriving DecidableEq, Repr

/-- `ServerStatusManager::UpdateConfigForModel` (server_status.cc 65-83):
if the model has no status entry, return `INVALID_ARG` and leave the
stored server status untouched (`find` on the map does not insert);
otherwise replace only that entry's `config` field. -/
def updateConfigForModel {α β : Type}
    (modelStatus : String → Option (ModelStatusEntry α β))
    (modelName : String) (modelConfig : α) :
    StatusCode × (String → Option (ModelStatusEntry α β)) :=
  match modelStatus modelName with
  | none => (.invalidArg, modelStatus)
  | some entry =>
    (.success,
      fun n =>
        if n = modelName then some { entry with config := modelConfig }
        else modelStatus n)

/-- `ServerStatusManager::InitForModel` (server_status.cc 46-63): creates
the entry when absent, clears it when present, then stores the config; in
both cases the entry afterwards holds the given config and a fresh
remainder. -/
def initForModel {α β : Type} (freshVersionStatus : β)
    (modelStatus : String → Option (ModelStatusEntry α β))
    (modelName : String) (modelConfig : α) :
    StatusCode × (String → Option (ModelStatusEntry α β)) :=
  (.success,
    fun n =>
      if n = modelName then some ⟨modelConfig, freshVersionStatus⟩
      else modelStatus n)

/-- Slicing a list into chunks of the given sizes starting at an index:
the shape in which the output-dispersion loop walks the flat element
list. -/
def takeChunks {α : Type} (l : List α) : Nat → List Nat → List (List α)
  | _, [] => []
  | a, c :: cs => (l.drop a).take c :: takeChunks l (a + c) cs

/-! ## Theorems -/

/-- The admission prefix with all payload statuses OK, written out as the
remaining two gates. -/
theorem runAdmission_of_all_ok (maxBatchSize : Nat) (payloads : List RunPayload)
    (hok : payloads.any (fun p => p.status != StatusCode.success) = false) :
    runAdmission maxBatchSize payloads =
      if totalBatchSize payloads = 0 then .emptySuccess
      else if totalBatchSize payloads ≠ 1 ∧ maxBatchSize < totalBatchSize payloads then
        .rejectBatchSize
      else .proceed (totalBatchSize payloads) := by
  unfold runAdmission
  rw [hok]
  simp

/-- C1: on every run, a total batch size that is neither 1 nor at most
`max_batch_size` is rejected with an Internal error before any input
staging; with `max_batch_size == 0` (NO_BATCHING) the run proceeds to
staging exactly when the total batch size is 1, and any total batch size
of 2 or more is rejected with Internal. -/
theorem run_batch_size_gate (maxBatchSize : Nat) (payloads : List RunPayload)
    (hok : payloads.any (fun p => p.status != StatusCode.success) = false) :
    (totalBatchSize payloads ≠ 1 → maxBatchSize < totalBatchSize payloads →
        runAdmission maxBatchSize payloads = .rejectBatchSize
      ∧ admissionStatus (runAdmission maxBatchSize payloads) = .internalError
      ∧ admissionStagesInputs (runAdmission maxBatchSize payloads) = false)
  ∧ (maxBatchSize = 0 →
        ((∃ t, runAdmission maxBatchSize payloads = .proceed t)
            ↔ totalBatchSize payloads = 1)
      ∧ (2 ≤ totalBatchSize payloads →
          runAdmission maxBatchSize payloads = .rejectBatchSize
        ∧ admissionStatus (runAdmission maxBatchSize payloads) = .internalError)) := by
  have hbase := runAdmission_of_all_ok maxBatchSize payloads hok
  constructor
  · intro h1 h2
    have hr : runAdmission maxBatchSize payloads = .rejectBatchSize := by
      rw [hbase, if_neg (by omega), if_pos ⟨h1, h2⟩]
    exact ⟨hr, by rw [hr]; rfl, by rw [hr]; rfl⟩
  · intro h0
    subst h0
    constructor
    · constructor
      · rintro ⟨t, ht⟩
        rw [hbase] at ht
        by_cases hz : totalBatchSize payloads = 0
        · rw [if_pos hz] at ht; cases ht
        · rw [if_neg hz] at ht
          by_cases h1 : totalBatchSize payloads = 1
          · exact h1
          · rw [if_pos ⟨h1, by omega⟩] at ht; cases ht
      · intro h1
        refine ⟨1, ?_⟩
        rw [hbase, if_neg (by omega), if_neg (by simp [h1]), h1]
    · intro h2
      have hr : runAdmission 0 payloads = .rejectBatchSize := by
        rw [hbase, if_neg (by omega), if_pos ⟨by omega, by omega⟩]
      exact ⟨hr, by rw [hr]; rfl⟩

/-- Witness for C1: a non-batching context given total batch size 2
rejects the run with Internal. -/
theorem run_batch_size_gate_witness :
    runAdmission 0 [⟨.success, 2⟩] = .rejectBatchSize
  ∧ admissionStatus (runAdmission 0 [⟨.success, 2⟩]) = .internalError := by
  have h := run_batch_size_gate 0 [⟨.success, 2⟩] (by decide)
  exact (h.2 rfl).2 (by decide)

/-- C6: a payload delivered with a non-OK status makes the run return an
Internal error without staging inputs (and hence without invoking the
engine). -/
theorem run_rejects_nonok_payload (maxBatchSize : Nat) (payloads : List RunPayload)
    (h : payloads.any (fun p => p.status != StatusCode.success) = true) :
    runAdmission maxBatchSize payloads = .rejectPayloadStatus
  ∧ admissionStatus (runAdmission maxBatchSize payloads) = .internalError
  ∧ admissionStagesInputs (runAdmission maxBatchSize payloads) = false := by
  have hr : runAdmission maxBatchSize payloads = .rejectPayloadStatus := by
    unfold runAdmission
    rw [if_pos h]
  exact ⟨hr, by rw [hr]; rfl, by rw [hr]; rfl⟩

/-- Witness for C6: one payload entering with InvalidArg status. -/
theorem run_rejects_nonok_payload_witness :
    runAdmission 8 [⟨.invalidArg, 1⟩] = .rejectPayloadStatus
  ∧ admissionStatus (runAdmission 8 [⟨.invalidArg, 1⟩]) = .internalError
  ∧ admissionStagesInputs (runAdmission 8 [⟨.invalidArg, 1⟩]) = false :=
  run_rejects_nonok_payload 8 [⟨.invalidArg, 1⟩] (by decide)

/-- C3: the ONNX indirect-input loop's `cuda_copy |= cuda_copy` self-OR
leaves the flag `false` even when a successful copy was enqueued on the
device (`cuda_used = true`), so the subsequent stream synchronization is
skipped; the TensorFlow twin's `cuda_copy |= cuda_used` sets it. In
general the ONNX flag is `false` on every input while the TensorFlow flag
is `true` exactly when some successful copy used the device. -/
theorem indirect_input_cuda_flag_divergence :
    onnxIndirectInputCudaCopy [⟨true, true⟩] = false
  ∧ tfIndirectInputCudaCopy [⟨true, true⟩] = true
  ∧ (∀ copies, onnxIndirectInputCudaCopy copies = false)
  ∧ (∀ copies, tfIndirectInputCudaCopy copies
        = copies.any fun c => c.ok && c.cudaUsed) := by
  refine ⟨rfl, rfl, ?_, ?_⟩
  · intro copies
    unfold onnxIndirectInputCudaCopy
    induction copies with
    | nil => rfl
    | cons c cs ih =>
      rw [List.foldl_cons]
      have hstep : (if c.ok then (false || false) else false) = false := by
        cases c.ok <;> rfl
      rw [hstep]
      exact ih
  · intro copies
    unfold tfIndirectInputCudaCopy
    have key : ∀ acc : Bool,
        copies.foldl
            (fun cudaCopy c => if c.ok then cudaCopy || c.cudaUsed else cudaCopy) acc
          = (acc || copies.any fun c => c.ok && c.cudaUsed) := by
      induction copies with
      | nil => intro acc; simp
      | cons c cs ih =>
        intro acc
        rw [List.foldl_cons, List.any_cons, ih]
        cases hco : c.ok <;> cases hcu : c.cudaUsed <;>
          simp [hco, hcu, Bool.or_assoc]
    simpa using key false

/-- C7: the expected input count is the number of declared configuration
inputs plus one per enabled sequence-control tensor, and the validator
fails with InvalidArg whenever the session reports a different number of
inputs, whatever the remaining per-input checks would have said. -/
theorem expected_input_count_gate (configInputCnt : Nat)
    (hasSequenceBatching haveStart haveEnd haveReady haveCorrid : Bool)
    (sessionInputCnt : Nat) (perIoChecks : StatusCode)
    (h : sessionInputCnt ≠ expectedInputCnt configInputCnt hasSequenceBatching
          haveStart haveEnd haveReady haveCorrid) :
    validateInputCount sessionInputCnt
        (expectedInputCnt configInputCnt hasSequenceBatching
          haveStart haveEnd haveReady haveCorrid)
        perIoChecks = .invalidArg
  ∧ expectedInputCnt configInputCnt true haveStart haveEnd haveReady haveCorrid
      = configInputCnt + ((if haveStart then 1 else 0) + (if haveEnd then 1 else 0)
          + (if haveReady then 1 else 0) + (if haveCorrid then 1 else 0)) := by
  refine ⟨?_, rfl⟩
  unfold validateInputCount
  rw [if_pos h]

/-- Witness for C7: two declared inputs, start and ready controls
enabled, session reporting 3 inputs instead of the expected 4. -/
theorem expected_input_count_gate_witness :
    validateInputCount 3 (expectedInputCnt 2 true true false true false)
        StatusCode.success = .invalidArg
  ∧ expectedInputCnt 2 true true false true false
      = 2 + ((if true then 1 else 0) + (if false then 1 else 0)
          + (if true then 1 else 0) + (if false then 1 else 0)) :=
  expected_input_count_gate 2 true true false true false 3 .success (by decide)

/-- C8: validation of an enabled sequence-control tensor succeeds exactly
when the debatched shape is `[1]` and the session tensor's element type
equals the converted declared control datatype; every other case is an
InvalidArg failure. -/
theorem sequence_control_tensor_validation (maxBatchSize : Nat)
    (tensorDims : List Int) (tensorType declaredTypeConverted : Nat) :
    validateSequenceControlTensor maxBatchSize tensorDims tensorType
        declaredTypeConverted
      = if debatchedDims maxBatchSize tensorDims = [1]
            ∧ declaredTypeConverted = tensorType
        then .success else .invalidArg := by
  have key : ((debatchedDims maxBatchSize tensorDims).length ≠ 1 ∨
      (debatchedDims maxBatchSize tensorDims).getD 0 0 ≠ 1) ↔
      debatchedDims maxBatchSize tensorDims ≠ [1] := by
    rcases debatchedDims maxBatchSize tensorDims with _ | ⟨x, _ | ⟨y, t⟩⟩ <;> simp
  unfold validateSequenceControlTensor
  by_cases hshape : debatchedDims maxBatchSize tensorDims = [1]
  · rw [if_neg (fun hc => (key.mp hc) hshape)]
    by_cases heq : declaredTypeConverted = tensorType
    · rw [if_neg (fun hc => hc heq), if_pos ⟨hshape, heq⟩]
    · rw [if_pos heq, if_neg (fun hc => heq hc.2)]
  · rw [if_pos (key.mpr hshape), if_neg (fun hc => hshape hc.1)]

/-- C10: updating the config of a model with no status entry returns
InvalidArg and leaves the stored server status completely unchanged;
updating an existing entry succeeds, replaces only that model's config
field, and leaves every other model's status untouched. -/
theorem update_config_for_model_spec {α β : Type}
    (modelStatus : String → Option (ModelStatusEntry α β))
    (modelName : String) (modelConfig : α) :
    (modelStatus modelName = none →
        updateConfigForModel modelStatus modelName modelConfig
          = (.invalidArg, modelStatus))
  ∧ (∀ entry, modelStatus modelName = some entry →
        (updateConfigForModel modelStatus modelName modelConfig).1 = .success
      ∧ (updateConfigForModel modelStatus modelName modelConfig).2 modelName
          = some ⟨modelConfig, entry.versionStatus⟩
      ∧ ∀ other, other ≠ modelName →
          (updateConfigForModel modelStatus modelName modelConfig).2 other
            = modelStatus other) := by
  constructor
  · intro h
    unfold updateConfigForModel
    rw [h]
  · intro entry h
    unfold updateConfigForModel
    rw [h]
    refine ⟨rfl, ?_, ?_⟩
    · simp
    · intro other hne
      simp [hne]

/-- Witness for C10: an absent model is rejected with the state unchanged;
a present model has only its config field replaced. -/
theorem update_config_for_model_witness :
    updateConfigForModel (fun _ => (none : Option (ModelStatusEntry Nat Nat)))
        "resnet" 5
      = (.invalidArg, fun _ => none)
  ∧ (updateConfigForModel
        (fun n => if n = "resnet" then some (⟨1, 7⟩ : ModelStatusEntry Nat Nat)
          else none) "resnet" 5).1 = .success
  ∧ (updateConfigForModel
        (fun n => if n = "resnet" then some (⟨1, 7⟩ : ModelStatusEntry Nat Nat)
          else none) "resnet" 5).2 "resnet" = some ⟨5, 7⟩
  ∧ (updateConfigForModel
        (fun n => if n = "resnet" then some (⟨1, 7⟩ : ModelStatusEntry Nat Nat)
          else none) "resnet" 5).2 "densenet" = none := by
  refine ⟨(update_config_for_model_spec _ "resnet" 5).1 rfl, ?_⟩
  have h := (update_config_for_model_spec
      (fun n => if n = "resnet" then some (⟨1, 7⟩ : ModelStatusEntry Nat Nat)
        else none) "resnet" 5).2 ⟨1, 7⟩ (by simp)
  exact ⟨h.1, h.2.1, (h.2.2 "densenet" (by decide)).trans (by simp)⟩

/-! ### Wire-format parsing lemmas -/

/-- Reading back a little-endian `uint32` store of a value below 2^32
recovers the value. -/
theorem readU32_u32le (n : Nat) (h : n < 4294967296) :
    readU32 (n % 256) (n / 256 % 256) (n / 65536 % 256) (n / 16777216 % 256) = n := by
  unfold readU32
  omega

/-- Unfolding equation of the parse loop on a buffer with at least four
bytes. -/
theorem parseStringElements_cons (cnt k b0 b1 b2 b3 : Nat) (rest : List Nat) :
    parseStringElements cnt k (b0 :: b1 :: b2 :: b3 :: rest) =
      if cnt ≤ k then ⟨.invalidArg, []⟩
      else if rest.length < readU32 b0 b1 b2 b3 then ⟨.invalidArg, []⟩
      else
        ⟨(parseStringElements cnt (k + 1) (rest.drop (readU32 b0 b1 b2 b3))).status,
          rest.take (readU32 b0 b1 b2 b3) ::
            (parseStringElements cnt (k + 1) (rest.drop (readU32 b0 b1 b2 b3))).elems⟩ := by
  rw [parseStringElements]

/-- The parse loop exits silently on a buffer with fewer than four
remaining bytes. -/
theorem parseStringElements_short (cnt k : Nat) (buf : List Nat)
    (h : buf.length < 4) : parseStringElements cnt k buf = ⟨.success, []⟩ := by
  rcases buf with _ | ⟨a, _ | ⟨b, _ | ⟨c, _ | ⟨d, rest⟩⟩⟩⟩
  · simp [parseStringElements]
  · simp [parseStringElements]
  · simp [parseStringElements]
  · simp [parseStringElements]
  · simp only [List.length_cons] at h
    omega

/-- The parse loop never pushes more than the expected number of
elements. -/
theorem parseStringElements_length_le (cnt k : Nat) (buf : List Nat) :
    (parseStringElements cnt k buf).elems.length ≤ cnt - k := by
  induction k, buf using parseStringElements.induct cnt with
  | case1 k b0 b1 b2 b3 rest hle =>
    rw [parseStringElements_cons, if_pos hle]
    simp
  | case2 k b0 b1 b2 b3 rest hgt len hshort =>
    rw [parseStringElements_cons, if_neg hgt, if_pos hshort]
    simp
  | case3 k b0 b1 b2 b3 rest hgt len hlong ih =>
    have ih2 : (parseStringElements cnt (k + 1)
        (List.drop (readU32 b0 b1 b2 b3) rest)).elems.length ≤ cnt - (k + 1) := ih
    rw [parseStringElements_cons, if_neg hgt, if_neg hlong]
    simp only [List.length_cons]
    omega
  | case4 k buf hne =>
    have hlt : buf.length < 4 := by
      rcases buf with _ | ⟨a, _ | ⟨b, _ | ⟨c, _ | ⟨d, rest⟩⟩⟩⟩
      · simp
      · simp
      · simp
      · simp
      · exact absurd rfl (hne a b c d rest)
    rw [parseStringElements_short cnt k buf hlt]
    simp

/-- Serialization of a cons, with the appends flattened. -/
theorem serializeElems_cons (s : List Nat) (es : List (List Nat)) :
    serializeElems (s :: es) = u32le s.length ++ (s ++ serializeElems es) := by
  simp [serializeElems, serializeElem, List.append_assoc]

/-- Parsing the serialization of `es` with the exact expected element
count recovers `es` with OK status (all element lengths must fit a
`uint32`). -/
theorem parse_serializeElems (es : List (List Nat)) (k : Nat)
    (h : ∀ s ∈ es, s.length < 4294967296) :
    parseStringElements (k + es.length) k (serializeElems es) = ⟨.success, es⟩ := by
  induction es generalizing k with
  | nil =>
    rw [show serializeElems [] = [] from rfl]
    exact parseStringElements_short _ _ _ (by simp)
  | cons s rest ih =>
    have hs : s.length < 4294967296 := h s (by simp)
    rw [serializeElems_cons]
    simp only [u32le, List.cons_append, List.nil_append]
    rw [parseStringElements_cons]
    rw [if_neg (by simp)]
    rw [readU32_u32le s.length hs]
    rw [if_neg (by simp)]
    rw [List.take_left, List.drop_left]
    have hcnt : k + (s :: rest).length = (k + 1) + rest.length := by
      simp only [List.length_cons]
      omega
    rw [hcnt, ih (k + 1) (fun x hx => h x (List.mem_cons_of_mem s hx))]

/-! ### Input assembly lemmas -/

/-- Each payload contributes exactly `BatchSize() * batch1_element_cnt`
elements to `string_data` (parsed elements plus empty-string padding). -/
theorem onnxStringPayloadResult_length (b1 : Nat) (p : StringPayload) :
    (onnxStringPayloadResult b1 p).2.length = p.batchSize * b1 := by
  simp only [onnxStringPayloadResult]
  split
  · simp only [List.length_append, List.length_replicate]
    have := parseStringElements_length_le (p.batchSize * b1) 0 p.buf
    omega
  · simp

/-- Each payload fills exactly `BatchSize() * batch1_element_cnt` tensor
positions in the TensorFlow string input path. -/
theorem tfStringPayloadResult_length (b1 : Nat) (q : TfStringPayload) :
    (tfStringPayloadResult b1 q).2.length = q.batchSize * b1 := by
  simp only [tfStringPayloadResult]
  have hle := parseStringElements_length_le (q.batchSize * b1) 0 q.buf
  split
  · simp
  · split
    · simp only [List.length_append, List.length_replicate]
      omega
    · split
      · simp only [List.length_append, List.length_replicate]
        omega
      · rename_i hne
        rw [ne_eq, not_not] at hne
        exact hne

/-- The statuses after ONNX string input assembly are the per-payload
results, in order: each payload's status depends only on that payload. -/
theorem onnxSetStringInputBuffer_fst (b1 : Nat) (ps : List StringPayload) :
    (onnxSetStringInputBuffer b1 ps).1
      = ps.map fun p => (onnxStringPayloadResult b1 p).1 := by
  induction ps with
  | nil => rfl
  | cons p ps ih => simp [onnxSetStringInputBuffer, ih]

/-- The assembled `string_data` is the concatenation of the per-payload
contributions. -/
theorem onnxSetStringInputBuffer_snd (b1 : Nat) (ps : List StringPayload) :
    (onnxSetStringInputBuffer b1 ps).2
      = (ps.map fun p => (onnxStringPayloadResult b1 p).2).flatten := by
  induction ps with
  | nil => rfl
  | cons p ps ih => simp [onnxSetStringInputBuffer, ih]

/-- ONNX string input assembly always delivers exactly the expected total
number of elements. -/
theorem onnxSetStringInputBuffer_length (b1 : Nat) (ps : List StringPayload) :
    (onnxSetStringInputBuffer b1 ps).2.length
      = (ps.map fun p => p.batchSize * b1).sum := by
  induction ps with
  | nil => rfl
  | cons p ps ih =>
    simp only [onnxSetStringInputBuffer, List.length_append, List.map_cons,
      List.sum_cons, ih, onnxStringPayloadResult_length]

/-- TensorFlow string input assembly always fills exactly the expected
total number of tensor positions. -/
theorem tfSetStringInputTensor_length (b1 : Nat) (qs : List TfStringPayload) :
    (tfSetStringInputTensor b1 qs).2.length
      = (qs.map fun q => q.batchSize * b1).sum := by
  induction qs with
  | nil => rfl
  | cons q qs ih =>
    simp only [tfSetStringInputTensor, List.length_append, List.map_cons,
      List.sum_cons, ih, tfStringPayloadResult_length]

/-- C9: string input assembly always produces exactly the expected total
number of string elements — the sum over payloads of batch size times the
per-batch-1 element count — in both the ONNX and the TensorFlow paths:
malformed or short buffers and payloads with prior non-OK status have
their missing positions filled with empty strings. -/
theorem string_input_fully_populated (b1 : Nat) (ps : List StringPayload)
    (qs : List TfStringPayload) :
    (onnxSetStringInputBuffer b1 ps).2.length
      = (ps.map fun p => p.batchSize * b1).sum
  ∧ (tfSetStringInputTensor b1 qs).2.length
      = (qs.map fun q => q.batchSize * b1).sum :=
  ⟨onnxSetStringInputBuffer_length b1 ps, tfSetStringInputTensor_length b1 qs⟩

/-- C5: a per-payload string-parse failure sets only that payload's
status to InvalidArg and does not abort the batch: every payload's status
is the function of that payload alone, the assembled tensor is still
fully populated (so the engine is still invoked), and any other payload
that parses cleanly keeps its OK status and still has its output buffer
allocated by output dispersion. -/
theorem string_input_partial_failure (b1 : Nat) (ps : List StringPayload)
    (i : Nat) (p : StringPayload) (hp : ps[i]? = some p)
    (hok : p.status = .success)
    (hbad : (parseStringElements (p.batchSize * b1) 0 p.buf).status = .invalidArg) :
    (onnxSetStringInputBuffer b1 ps).1[i]? = some .invalidArg
  ∧ (∀ (j : Nat) (q : StringPayload), ps[j]? = some q →
        (onnxSetStringInputBuffer b1 ps).1[j]?
          = some (onnxStringPayloadResult b1 q).1)
  ∧ (onnxSetStringInputBuffer b1 ps).2.length
      = (ps.map fun q => q.batchSize * b1).sum
  ∧ (∀ (j : Nat) (q : StringPayload), j ≠ i → ps[j]? = some q → q.status = .success →
      (parseStringElements (q.batchSize * b1) 0 q.buf).status = .success →
        (onnxSetStringInputBuffer b1 ps).1[j]? = some .success
      ∧ ∀ es eIdx,
          (tfStringOutputPayload b1 es eIdx ⟨.success, q.batchSize, true⟩).allocated
            = true) := by
  have hmap := onnxSetStringInputBuffer_fst b1 ps
  have hstat : ∀ q : StringPayload, q.status = .success →
      (onnxStringPayloadResult b1 q).1
        = (parseStringElements (q.batchSize * b1) 0 q.buf).status := by
    intro q hq
    simp only [onnxStringPayloadResult]
    rw [if_pos hq]
  refine ⟨?_, ?_, onnxSetStringInputBuffer_length b1 ps, ?_⟩
  · rw [hmap, List.getElem?_map, hp]
    simp only [Option.map_some']
    rw [hstat p hok, hbad]
  · intro j q hq
    rw [hmap, List.getElem?_map, hq]
    rfl
  · intro j q hne hq hqok hqparse
    constructor
    · rw [hmap, List.getElem?_map, hq]
      simp only [Option.map_some']
      rw [hstat q hqok, hqparse]
    · intro es eIdx
      simp [tfStringOutputPayload]

/-- Witness for C5: payload #1 carries the well-formed encoding of one
string of one byte; payload #2 declares a string of length 8 with only
two content bytes available, so it alone is marked InvalidArg while the
batch stays fully populated. -/
theorem string_input_partial_failure_witness :
    (onnxSetStringInputBuffer 1
        [⟨.success, 1, [1, 0, 0, 0, 97]⟩, ⟨.success, 1, [8, 0, 0, 0, 97, 98]⟩]).1[1]?
      = some .invalidArg
  ∧ (onnxSetStringInputBuffer 1
        [⟨.success, 1, [1, 0, 0, 0, 97]⟩, ⟨.success, 1, [8, 0, 0, 0, 97, 98]⟩]).2.length
      = ([⟨.success, 1, [1, 0, 0, 0, 97]⟩,
          (⟨.success, 1, [8, 0, 0, 0, 97, 98]⟩ : StringPayload)].map
            fun q => q.batchSize * 1).sum
  ∧ (onnxSetStringInputBuffer 1
        [⟨.success, 1, [1, 0, 0, 0, 97]⟩, ⟨.success, 1, [8, 0, 0, 0, 97, 98]⟩]).1[0]?
      = some .success := by
  have h := string_input_partial_failure 1
      [⟨.success, 1, [1, 0, 0, 0, 97]⟩, ⟨.success, 1, [8, 0, 0, 0, 97, 98]⟩]
      1 ⟨.success, 1, [8, 0, 0, 0, 97, 98]⟩ rfl rfl
      (by simp [parseStringElements, readU32])
  exact ⟨h.1, h.2.2.1,
    (h.2.2.2 0 ⟨.success, 1, [1, 0, 0, 0, 97]⟩ (by omega) rfl rfl
      (by simp [parseStringElements, readU32])).1⟩

/-! ### Output dispersion lemmas -/

/-- The offsets array entry `i` is the summed length of the first `i`
elements. -/
theorem stringOffsets_getD (es : List (List Nat)) (i : Nat) (h : i ≤ es.length) :
    (stringOffsets es).getD i 0 = ((es.take i).map List.length).sum := by
  unfold stringOffsets
  rw [List.getD_eq_getElem?_getD, List.getElem?_map, List.getElem?_range (by omega)]
  rfl

/-- Two offsets differ by the summed lengths of the elements between
them. -/
theorem stringOffsets_diff (es : List (List Nat)) (a b : Nat)
    (h : a + b ≤ es.length) :
    (stringOffsets es).getD (a + b) 0 - (stringOffsets es).getD a 0
      = (((es.drop a).take b).map List.length).sum := by
  rw [stringOffsets_getD es (a + b) h, stringOffsets_getD es a (by omega),
    List.take_add, List.map_append, List.sum_append]
  omega

/-- Dropping the byte length of the first `a` elements from the flattened
content drops exactly those elements. -/
theorem flatten_drop_offset (es : List (List Nat)) (a : Nat) :
    es.flatten.drop (((es.take a).map List.length).sum) = (es.drop a).flatten := by
  induction a generalizing es with
  | zero => simp
  | succ n ih =>
    cases es with
    | nil => simp
    | cons s rest =>
      simp only [List.take_succ_cons, List.map_cons, List.sum_cons,
        List.flatten_cons, List.drop_succ_cons]
      rw [← List.drop_drop, List.drop_left]
      exact ih rest

/-- The byte slice of the flattened content at element `a` is exactly
that element. -/
theorem flatten_elem_slice (es : List (List Nat)) (a : Nat) (h : a < es.length) :
    (es.flatten.drop (((es.take a).map List.length).sum)).take (es.getD a []).length
      = es.getD a [] := by
  rw [flatten_drop_offset, List.drop_eq_getElem_cons h, List.flatten_cons,
    List.getD_eq_getElem es [] h, List.take_left]

/-- Consecutive offsets differ by the length of the element between
them. -/
theorem stringOffsets_succ_diff (es : List (List Nat)) (a : Nat)
    (h : a < es.length) :
    (stringOffsets es).getD (a + 1) 0 - (stringOffsets es).getD a 0
      = (es.getD a []).length := by
  rw [stringOffsets_diff es a 1 (by omega), List.drop_eq_getElem_cons h,
    List.take_succ_cons, List.take_zero, List.map_cons, List.map_nil,
    List.sum_cons, List.sum_nil, List.getD_eq_getElem es [] h]
  omega

/-- The ONNX per-element emission loop writes exactly the wire
serialization of the elements it walks. -/
theorem onnxEmitElems_eq_serialize (es : List (List Nat)) (a b : Nat)
    (h : a + b ≤ es.length) :
    onnxEmitElems es.flatten (stringOffsets es) a b
      = serializeElems ((es.drop a).take b) := by
  induction b generalizing a with
  | zero => simp [onnxEmitElems, serializeElems]
  | succ n ih =>
    have ha : a < es.length := by omega
    have hslice : (es.drop a).take (n + 1)
        = es.getD a [] :: (es.drop (a + 1)).take n := by
      rw [List.drop_eq_getElem_cons ha, List.take_succ_cons,
        List.getD_eq_getElem es [] ha]
    rw [hslice, serializeElems_cons]
    simp only [onnxEmitElems]
    rw [stringOffsets_succ_diff es a ha, stringOffsets_getD es a (by omega),
      flatten_elem_slice es a ha, ih (a + 1) (by omega), List.append_assoc]

/-- Chunking a flattened list by the pieces' lengths, starting right
after a prefix, recovers the pieces. -/
theorem takeChunks_flatten_pre {α : Type} (pieces : List (List α)) (pre : List α) :
    takeChunks (pre ++ pieces.flatten) pre.length (pieces.map List.length)
      = pieces := by
  induction pieces generalizing pre with
  | nil => rfl
  | cons p ps ih =>
    simp only [List.map_cons, takeChunks, List.flatten_cons]
    have h1 : ((pre ++ (p ++ ps.flatten)).drop pre.length).take p.length = p := by
      rw [List.drop_left, List.take_left]
    have h2 : takeChunks (pre ++ (p ++ ps.flatten)) (pre.length + p.length)
        (ps.map List.length) = ps := by
      have h3 := ih (pre ++ p)
      rw [List.append_assoc, List.length_append] at h3
      exact h3
    rw [h1, h2]

/-- Chunking a flattened list by the pieces' lengths recovers the
pieces. -/
theorem takeChunks_flatten {α : Type} (pieces : List (List α)) :
    takeChunks pieces.flatten 0 (pieces.map List.length) = pieces := by
  simpa using takeChunks_flatten_pre pieces []

/-- The bytes written by ONNX string output dispersion, when every payload
requests the output: each payload receives the serialization of its chunk
of the element list. -/
theorem onnxSetStringOutputBuffer_bytes (b1 : Nat) (es : List (List Nat))
    (qs : List OutPayload) (a : Nat)
    (hreq : ∀ q ∈ qs, q.requested = true)
    (hb : a + (qs.map fun q => q.batchSize * b1).sum ≤ es.length) :
    (onnxSetStringOutputBuffer b1 es.flatten (stringOffsets es) a qs).map
        PayloadOutput.bytes
      = (takeChunks es a (qs.map fun q => q.batchSize * b1)).map serializeElems := by
  revert hreq hb
  induction qs generalizing a with
  | nil =>
    intro hreq hb
    rfl
  | cons q qs ih =>
    intro hreq hb
    simp only [List.map_cons, List.sum_cons] at hb
    simp only [onnxSetStringOutputBuffer, takeChunks, List.map_cons]
    have hq : q.requested = true := hreq q (by simp)
    have hbytes : (onnxStringOutputPayload b1 es.flatten (stringOffsets es) a q).bytes
        = serializeElems ((es.drop a).take (q.batchSize * b1)) := by
      simp only [onnxStringOutputPayload, hq, if_true]
      exact onnxEmitElems_eq_serialize es a (q.batchSize * b1) (by omega)
    rw [hbytes,
      ih (a + q.batchSize * b1) (fun r hr => hreq r (by simp [hr])) (by omega)]

/-- The bytes written by TensorFlow string output dispersion, when every
payload has OK status and requests the output: each payload receives the
serialization of its chunk of the element list. -/
theorem tfReadStringOutputTensor_bytes (b1 : Nat) (es : List (List Nat))
    (qs : List OutPayload) (a : Nat)
    (hok : ∀ q ∈ qs, q.status = .success ∧ q.requested = true) :
    (tfReadStringOutputTensor b1 es a qs).map PayloadOutput.bytes
      = (takeChunks es a (qs.map fun q => q.batchSize * b1)).map serializeElems := by
  revert hok
  induction qs generalizing a with
  | nil =>
    intro _
    rfl
  | cons q qs ih =>
    intro hok
    simp only [tfReadStringOutputTensor, takeChunks, List.map_cons]
    obtain ⟨hs, hr⟩ := hok q (by simp)
    have hbytes : (tfStringOutputPayload b1 es a q).bytes
        = serializeElems ((es.drop a).take (q.batchSize * b1)) := by
      simp only [tfStringOutputPayload]
      rw [if_pos ⟨hs, hr⟩]
    rw [hbytes, ih (a + q.batchSize * b1) (fun r hr2 => hok r (by simp [hr2]))]

/-- The serialized wire length: the data bytes plus four length-prefix
bytes per element. -/
theorem serializeElems_length (es : List (List Nat)) :
    (serializeElems es).length = (es.map List.length).sum + 4 * es.length := by
  induction es with
  | nil => rfl
  | cons s rest ih =>
    rw [serializeElems_cons]
    simp only [List.length_append, u32le, List.length_cons, List.length_nil,
      List.map_cons, List.sum_cons, ih]
    omega

/-- C2: for any batch of string payloads carrying well-formed wire data,
input assembly followed by the identity engine followed by output
dispersion hands every payload back exactly its original bytes — per
element a `u32` length then the raw bytes — and an empty string
serializes to exactly four zero bytes. -/
theorem string_identity_roundtrip (b1 : Nat) (pl : List (Nat × List (List Nat)))
    (h : ∀ pr ∈ pl, pr.1 * b1 = pr.2.length ∧ ∀ s ∈ pr.2, s.length < 4294967296) :
    identityStringPipeline b1
        (pl.map fun pr => ⟨.success, pr.1, serializeElems pr.2⟩)
      = pl.map (fun pr => serializeElems pr.2)
  ∧ (tfReadStringOutputTensor b1
        (onnxSetStringInputBuffer b1
          (pl.map fun pr => ⟨.success, pr.1, serializeElems pr.2⟩)).2 0
        (pl.map fun pr => ⟨.success, pr.1, true⟩)).map PayloadOutput.bytes
      = pl.map (fun pr => serializeElems pr.2)
  ∧ serializeElem [] = [0, 0, 0, 0] := by
  have hpayload : ∀ pr ∈ pl,
      (onnxStringPayloadResult b1 ⟨.success, pr.1, serializeElems pr.2⟩).2 = pr.2 := by
    intro pr hpr
    obtain ⟨hcnt, hlens⟩ := h pr hpr
    have hparse : parseStringElements pr.2.length 0 (serializeElems pr.2)
        = ⟨.success, pr.2⟩ := by
      simpa using parse_serializeElems pr.2 0 hlens
    simp [onnxStringPayloadResult, hcnt, hparse]
  have hflat : (onnxSetStringInputBuffer b1
        (pl.map fun pr => ⟨.success, pr.1, serializeElems pr.2⟩)).2
      = (pl.map fun pr => pr.2).flatten := by
    rw [onnxSetStringInputBuffer_snd, List.map_map]
    congr 1
    exact List.map_congr_left fun pr hpr => hpayload pr hpr
  have hcnts : (pl.map fun pr => (⟨.success, pr.1, true⟩ : OutPayload)).map
        (fun q => q.batchSize * b1)
      = (pl.map fun pr => pr.2).map List.length := by
    rw [List.map_map, List.map_map]
    exact List.map_congr_left fun pr hpr => (h pr hpr).1
  refine ⟨?_, ?_, rfl⟩
  · simp only [identityStringPipeline]
    rw [hflat]
    have hqs : (pl.map fun pr =>
          (⟨.success, pr.1, serializeElems pr.2⟩ : StringPayload)).map
            (fun p => (⟨p.status, p.batchSize, true⟩ : OutPayload))
        = pl.map fun pr => ⟨.success, pr.1, true⟩ := by
      rw [List.map_map]
      exact List.map_congr_left fun pr _ => rfl
    rw [hqs]
    have hbytes := onnxSetStringOutputBuffer_bytes b1 (pl.map fun pr => pr.2).flatten
        (pl.map fun pr => ⟨.success, pr.1, true⟩) 0
        (by
          intro q hq
          simp only [List.mem_map] at hq
          obtain ⟨pr, _, rfl⟩ := hq
          rfl)
        (by
          rw [hcnts, List.length_flatten]
          omega)
    rw [hcnts] at hbytes
    rw [hbytes, takeChunks_flatten, List.map_map]
    rfl
  · rw [hflat]
    have hbytes := tfReadStringOutputTensor_bytes b1 (pl.map fun pr => pr.2).flatten
        (pl.map fun pr => ⟨.success, pr.1, true⟩) 0
        (by
          intro q hq
          simp only [List.mem_map] at hq
          obtain ⟨pr, _, rfl⟩ := hq
          exact ⟨rfl, rfl⟩)
    rw [hcnts] at hbytes
    rw [hbytes, takeChunks_flatten, List.map_map]
    rfl

/-- Witness for C2: one payload of batch size 3 carrying the strings
"abcd", "" and "xy" round-trips to its original wire bytes, and the empty
string serializes to four zero bytes. -/
theorem string_identity_roundtrip_witness :
    identityStringPipeline 1
        ([(3, [[97, 98, 99, 100], [], [120, 121]])].map
          fun pr => ⟨.success, pr.1, serializeElems pr.2⟩)
      = [(3, [[97, 98, 99, 100], [], [120, 121]])].map
          (fun pr => serializeElems pr.2)
  ∧ serializeElem [] = [0, 0, 0, 0] := by
  have h := string_identity_roundtrip 1 [(3, [[97, 98, 99, 100], [], [120, 121]])]
    (by decide)
  exact ⟨h.1, h.2.2⟩

/-- Counterexample for C4: in the ONNX string output path a payload whose
status is already non-OK (InvalidArg ≠ success) but which requested the
output still has its response buffer allocated and filled, contradicting
the claim that allocation happens only for payloads with OK status. -/
theorem string_output_allocated_despite_error :
    (onnxStringOutputPayload 1 [] (stringOffsets [[]]) 0
        ⟨.invalidArg, 1, true⟩).allocated = true
  ∧ (StatusCode.invalidArg = StatusCode.success → False) := by
  exact ⟨rfl, fun hc => by cases hc⟩

/-- C4 (amended): during string output dispersion the TensorFlow path
allocates and fills a payload's buffer exactly when the payload requested
the output and its status is OK, while the ONNX path allocates and fills
it exactly when the payload requested the output, regardless of its
status; in both paths the allocated size is the payload's data bytes
(difference of terminating and starting offsets, equal to the summed
element lengths) plus 4 per element, and each element is emitted as a
`u32` length followed by that many raw bytes. -/
theorem string_output_allocation_amended (b1 : Nat) (es : List (List Nat))
    (elementIdx : Nat) (p : OutPayload)
    (hb : elementIdx + p.batchSize * b1 ≤ es.length) :
    ((onnxStringOutputPayload b1 es.flatten (stringOffsets es) elementIdx p).allocated
        = p.requested)
  ∧ ((tfStringOutputPayload b1 es elementIdx p).allocated
        = (decide (p.status = .success) && p.requested))
  ∧ (p.requested = true →
      (onnxStringOutputPayload b1 es.flatten (stringOffsets es) elementIdx p).allocSize
          = (((es.drop elementIdx).take (p.batchSize * b1)).map List.length).sum
              + 4 * (p.batchSize * b1)
      ∧ (onnxStringOutputPayload b1 es.flatten (stringOffsets es) elementIdx p).bytes
          = serializeElems ((es.drop elementIdx).take (p.batchSize * b1)))
  ∧ (p.status = .success → p.requested = true →
      (tfStringOutputPayload b1 es elementIdx p).allocSize
          = (((es.drop elementIdx).take (p.batchSize * b1)).map List.length).sum
              + 4 * (p.batchSize * b1)
      ∧ (tfStringOutputPayload b1 es elementIdx p).bytes
          = serializeElems ((es.drop elementIdx).take (p.batchSize * b1))) := by
  refine ⟨?_, ?_, ?_, ?_⟩
  · simp only [onnxStringOutputPayload]
    cases hr : p.requested <;> simp [hr]
  · simp only [tfStringOutputPayload]
    by_cases hs : p.status = .success <;> cases hr : p.requested <;> simp [hs, hr]
  · intro hr
    simp only [onnxStringOutputPayload, hr, if_true]
    exact ⟨by rw [stringOffsets_diff es elementIdx (p.batchSize * b1) hb],
      onnxEmitElems_eq_serialize es elementIdx (p.batchSize * b1) hb⟩
  · intro hs hr
    have hlen : ((es.drop elementIdx).take (p.batchSize * b1)).length
        = p.batchSize * b1 := by
      rw [List.length_take, List.length_drop]
      omega
    have hcond : tfStringOutputPayload b1 es elementIdx p
        = { allocated := true
            allocSize :=
              (serializeElems ((es.drop elementIdx).take (p.batchSize * b1))).length
            bytes := serializeElems ((es.drop elementIdx).take (p.batchSize * b1))
            status := .success } := by
      simp only [tfStringOutputPayload]
      rw [if_pos ⟨hs, hr⟩]
    rw [hcond]
    refine ⟨?_, rfl⟩
    show (serializeElems ((es.drop elementIdx).take (p.batchSize * b1))).length = _
    rw [serializeElems_length, hlen]

/-- Witness for C4 (amended): two one-byte strings, payload of batch size
1 reading element 1: allocation follows requested-ness, the size is
1 + 4, and the emitted bytes are the serialization of that element. -/
theorem string_output_allocation_amended_witness :
    ((onnxStringOutputPayload 1 [[97], [98]].flatten (stringOffsets [[97], [98]]) 1
        ⟨.success, 1, true⟩).allocated = (⟨.success, 1, true⟩ : OutPayload).requested)
  ∧ ((onnxStringOutputPayload 1 [[97], [98]].flatten (stringOffsets [[97], [98]]) 1
        ⟨.success, 1, true⟩).bytes = serializeElems [[98]])
  ∧ ((tfStringOutputPayload 1 [[97], [98]] 1 ⟨.success, 1, true⟩).allocSize = 5) := by
  have h := string_output_allocation_amended 1 [[97], [98]] 1 ⟨.success, 1, true⟩
    (by decide)
  refine ⟨h.1, ?_, ?_⟩
  · have h2 := (h.2.2.1 rfl).2
    exact h2.trans (by decide)
  · have h3 := (h.2.2.2 rfl rfl).1
    exact h3.trans (by decide)

end TritonCore
